import Mathlib

/-!
Shallow embedding of the `standard_terminal_graphics` terminal rendering
engine (Rust): the plain and styled character grids with dirty tracking
(`src/lib.rs`), the Braille image encoder, the global buffer pools, and the
`SmartRenderer` engine (`src/renderer.rs`) with its full, incremental and
paged output strategies.  Machine integers (`usize`, `u16`, `u8`) are
modelled as `Nat`, with an explicit `% 65536` wherever the source casts to
`u16`; `f32` scale arithmetic is modelled exactly over `ℚ`.  Terminal
output is modelled as the string the source writes (crossterm's
`MoveTo`/`Clear` commands emit their standard ANSI sequences).
-/

namespace STG

/-- Closed range `[a, b)` of coordinates, as iterated by Rust `a..b` loops. -/
def rangeFromTo (a b : Nat) : List Nat := List.range' a (b - a)

/-- `Color` enumeration (src/lib.rs lines 199-211). -/
inductive Color where
  | black | red | green | yellow | blue | magenta | cyan | white | gray | reset
deriving DecidableEq, Repr

/-- `Color::to_ansi_fg` (src/lib.rs lines 214-227). -/
def Color.to_ansi_fg : Color → String
  | .black => "\x1b[30m"
  | .red => "\x1b[31m"
  | .green => "\x1b[32m"
  | .yellow => "\x1b[33m"
  | .blue => "\x1b[34m"
  | .magenta => "\x1b[35m"
  | .cyan => "\x1b[36m"
  | .white => "\x1b[37m"
  | .gray => "\x1b[90m"
  | .reset => "\x1b[0m"

/-- `Color::to_ansi_bg` (src/lib.rs lines 229-242). -/
def Color.to_ansi_bg : Color → String
  | .black => "\x1b[40m"
  | .red => "\x1b[41m"
  | .green => "\x1b[42m"
  | .yellow => "\x1b[43m"
  | .blue => "\x1b[44m"
  | .magenta => "\x1b[45m"
  | .cyan => "\x1b[46m"
  | .white => "\x1b[47m"
  | .gray => "\x1b[100m"
  | .reset => "\x1b[0m"

/-- `Rect` (src/lib.rs lines 172-183). -/
structure Rect where
  x : Nat
  y : Nat
  width : Nat
  height : Nat
deriving DecidableEq, Repr

/-- `StyledChar` (src/lib.rs lines 246-260); the default is a plain space. -/
structure StyledChar where
  ch : Char
  fg_color : Option Color
  bg_color : Option Color
deriving DecidableEq, Repr

/-- `StyledChar::new` (src/lib.rs lines 254-260). -/
def StyledChar.new (ch : Char) : StyledChar := ⟨ch, none, none⟩

instance : Inhabited StyledChar := ⟨StyledChar.new ' '⟩

/-- `StyledChar::default` (src/lib.rs lines 300-304). -/
def StyledChar.default : StyledChar := StyledChar.new ' '

/-- `StyledChar::to_string` (src/lib.rs lines 272-297). -/
def StyledChar.to_string (s : StyledChar) : String :=
  if s.fg_color = none ∧ s.bg_color = none then
    String.singleton s.ch
  else
    let r := (match s.fg_color with
      | some fg => fg.to_ansi_fg
      | none => "")
    let r := r ++ (match s.bg_color with
      | some bg => bg.to_ansi_bg
      | none => "")
    let r := r.push s.ch
    if s.fg_color.isSome ∨ s.bg_color.isSome then r ++ "\x1b[0m" else r

/-- `StyledChar::get_style_codes` (src/renderer.rs lines 37-49). -/
def StyledChar.get_style_codes (s : StyledChar) : String :=
  (match s.fg_color with
    | some fg => fg.to_ansi_fg
    | none => "") ++
  (match s.bg_color with
    | some bg => bg.to_ansi_bg
    | none => "")

/-- `FrameBuffer`: plain character grid, row-major (src/lib.rs lines 23-28). -/
structure FrameBuffer where
  width : Nat
  height : Nat
  data : List Char
deriving DecidableEq, Repr

/-- `FrameBuffer::new` (src/lib.rs lines 32-38). -/
def FrameBuffer.new (width height : Nat) : FrameBuffer :=
  ⟨width, height, List.replicate (width * height) ' '⟩

/-- `FrameBuffer::set` (src/lib.rs lines 50-54): bounds-checked write,
silent no-op when out of range. -/
def FrameBuffer.set (fb : FrameBuffer) (x y : Nat) (ch : Char) : FrameBuffer :=
  if x < fb.width ∧ y < fb.height then
    { fb with data := fb.data.set (y * fb.width + x) ch }
  else fb

/-- `FrameBuffer::get` (src/lib.rs lines 57-63): bounds-checked read,
a space when out of range. -/
def FrameBuffer.get (fb : FrameBuffer) (x y : Nat) : Char :=
  if x < fb.width ∧ y < fb.height then
    fb.data.getD (y * fb.width + x) ' '
  else ' '

/-- `StyledFrameBuffer`: styled grid with its append-only dirty-rect list
(src/lib.rs lines 307-313). -/
structure StyledFrameBuffer where
  width : Nat
  height : Nat
  data : List StyledChar
  dirty_regions : List Rect
deriving DecidableEq, Repr

/-- `StyledFrameBuffer::new` (src/lib.rs lines 316-323). -/
def StyledFrameBuffer.new (width height : Nat) : StyledFrameBuffer :=
  ⟨width, height, List.replicate (width * height) StyledChar.default, []⟩

/-- `StyledFrameBuffer::mark_dirty` (src/lib.rs lines 376-378): `Vec::push`
appends at the end. -/
def StyledFrameBuffer.mark_dirty (fb : StyledFrameBuffer) (rect : Rect) : StyledFrameBuffer :=
  { fb with dirty_regions := fb.dirty_regions ++ [rect] }

/-- `StyledFrameBuffer::get` (src/lib.rs lines 358-364). -/
def StyledFrameBuffer.get (fb : StyledFrameBuffer) (x y : Nat) : StyledChar :=
  if x < fb.width ∧ y < fb.height then
    fb.data.getD (y * fb.width + x) StyledChar.default
  else StyledChar.default

/-- `StyledFrameBuffer::set` (src/lib.rs lines 348-356): bounds check, then
equality check against the stored value; only a real change mutates storage
and records a 1×1 dirty rect. -/
def StyledFrameBuffer.set (fb : StyledFrameBuffer) (x y : Nat) (styled_char : StyledChar) :
    StyledFrameBuffer :=
  if x < fb.width ∧ y < fb.height then
    let index := y * fb.width + x
    if fb.data.getD index StyledChar.default ≠ styled_char then
      ({ fb with data := fb.data.set index styled_char } : StyledFrameBuffer).mark_dirty
        (Rect.mk x y 1 1)
    else fb
  else fb

/-- `StyledFrameBuffer::clear` (src/lib.rs lines 366-369). -/
def StyledFrameBuffer.clear (fb : StyledFrameBuffer) : StyledFrameBuffer :=
  ({ fb with data := List.replicate fb.data.length StyledChar.default } :
    StyledFrameBuffer).mark_dirty (Rect.mk 0 0 fb.width fb.height)

/-- `StyledFrameBuffer::force_refresh` (src/lib.rs lines 647-649). -/
def StyledFrameBuffer.force_refresh (fb : StyledFrameBuffer) : StyledFrameBuffer :=
  fb.mark_dirty (Rect.mk 0 0 fb.width fb.height)

/-- `StyledFrameBuffer::resize` (src/lib.rs lines 652-674): early return when
the size is unchanged; otherwise a fresh default store receives the
overlapping top-left rectangle and the whole grid is marked dirty. -/
def StyledFrameBuffer.resize (fb : StyledFrameBuffer) (new_width new_height : Nat) :
    StyledFrameBuffer :=
  if new_width = fb.width ∧ new_height = fb.height then fb
  else
    let copy_width := min new_width fb.width
    let copy_height := min new_height fb.height
    let new_data := (List.range (new_width * new_height)).map fun i =>
      let y := i / new_width
      let x := i % new_width
      if x < copy_width ∧ y < copy_height then fb.get x y else StyledChar.default
    ({ width := new_width, height := new_height, data := new_data,
       dirty_regions := fb.dirty_regions } : StyledFrameBuffer).force_refresh

/-- Rust `char::is_control`: the Unicode `Cc` category, exactly
`U+0000..U+001F` and `U+007F..U+009F`. -/
def isControlChar (c : Char) : Bool :=
  c.toNat < 0x20 || (0x7F ≤ c.toNat && c.toNat ≤ 0x9F)

/-- The `safe_char` computation of `draw_text` (src/lib.rs lines 549-553):
control characters and codepoints above 127 become a question mark. -/
def drawTextSafeChar (ch : Char) : Char :=
  if isControlChar ch || decide (ch.toNat > 127) then '?' else ch

/-- Inner loop of `StyledFrameBuffer::draw_text` (src/lib.rs lines 538-562):
walks the text with a written-character counter, breaking once the available
width `max_chars` is exhausted; control characters and codepoints above 127
are replaced by a question mark before writing. -/
def StyledFrameBuffer.draw_text_loop (fb : StyledFrameBuffer) (x y max_chars : Nat)
    (fg_color bg_color : Option Color) : List Char → Nat → StyledFrameBuffer
  | [], _ => fb
  | ch :: rest, char_count =>
    if char_count ≥ max_chars then fb
    else
      let pos_x := x + char_count
      if pos_x ≥ fb.width then fb
      else
        let styled_char : StyledChar := ⟨drawTextSafeChar ch, fg_color, bg_color⟩
        (fb.set pos_x y styled_char).draw_text_loop x y max_chars fg_color bg_color
          rest (char_count + 1)

/-- `StyledFrameBuffer::draw_text` (src/lib.rs lines 529-563). -/
def StyledFrameBuffer.draw_text (fb : StyledFrameBuffer) (x y : Nat) (text : List Char)
    (fg_color bg_color : Option Color) : StyledFrameBuffer :=
  if y ≥ fb.height ∨ x ≥ fb.width then fb
  else
    let max_chars := fb.width - x
    fb.draw_text_loop x y max_chars fg_color bg_color text 0

/-- One atomic piece pushed onto the output string by
`StyledFrameBuffer::to_string` (src/lib.rs lines 464-515): a foreground or
background color escape, a default-foreground (`ESC[39m`) or
default-background (`ESC[49m`) escape, a full reset (`ESC[0m`), a plain
character, or a newline. -/
inductive AnsiToken where
  | fgEsc (c : Color)
  | bgEsc (c : Color)
  | fgDefault
  | bgDefault
  | reset
  | chr (c : Char)
  | newline
deriving DecidableEq, Repr

/-- The exact text each token contributes to the serialized output. -/
def AnsiToken.render : AnsiToken → String
  | .fgEsc c => c.to_ansi_fg
  | .bgEsc c => c.to_ansi_bg
  | .fgDefault => "\x1b[39m"
  | .bgDefault => "\x1b[49m"
  | .reset => "\x1b[0m"
  | .chr c => String.singleton c
  | .newline => "\n"

/-- `StyledFrameBuffer::has_colors_in_row` (src/lib.rs lines 518-526). -/
def StyledFrameBuffer.has_colors_in_row (fb : StyledFrameBuffer) (y start_x : Nat) : Bool :=
  (rangeFromTo start_x fb.width).any fun x =>
    (fb.get x y).fg_color.isSome || (fb.get x y).bg_color.isSome

/-- Per-cell body of the `to_string` loop (src/lib.rs lines 472-494): the
running `(current_fg, current_bg)` state is updated and escapes are emitted
only when the cell's colors differ from it. -/
def StyledFrameBuffer.cellStep (fb : StyledFrameBuffer) (y : Nat)
    (acc : List AnsiToken × (Option Color × Option Color)) (x : Nat) :
    List AnsiToken × (Option Color × Option Color) :=
  let styled_char := fb.get x y
  let fgPart :=
    if styled_char.fg_color ≠ acc.2.1 then
      match styled_char.fg_color with
      | some fg => [AnsiToken.fgEsc fg]
      | none =>
        if fb.has_colors_in_row y x || decide (y = 0) then [AnsiToken.fgDefault] else []
    else []
  let bgPart :=
    if styled_char.bg_color ≠ acc.2.2 then
      match styled_char.bg_color with
      | some bg => [AnsiToken.bgEsc bg]
      | none =>
        if fb.has_colors_in_row y x || decide (y = 0) then [AnsiToken.bgDefault] else []
    else []
  let newFg := if styled_char.fg_color ≠ acc.2.1 then styled_char.fg_color else acc.2.1
  let newBg := if styled_char.bg_color ≠ acc.2.2 then styled_char.bg_color else acc.2.2
  (acc.1 ++ fgPart ++ bgPart ++ [AnsiToken.chr styled_char.ch], (newFg, newBg))

/-- Per-row body of the `to_string` loop (src/lib.rs lines 471-507): after
walking a non-last row, styles are reset (when set) and a newline emitted. -/
def StyledFrameBuffer.rowStep (fb : StyledFrameBuffer)
    (acc : List AnsiToken × (Option Color × Option Color)) (y : Nat) :
    List AnsiToken × (Option Color × Option Color) :=
  let inner := (List.range fb.width).foldl (fb.cellStep y) acc
  if y < fb.height - 1 then
    if inner.2.1.isSome || inner.2.2.isSome then
      (inner.1 ++ [AnsiToken.reset, AnsiToken.newline], (none, none))
    else (inner.1 ++ [AnsiToken.newline], inner.2)
  else inner

/-- `StyledFrameBuffer::to_string` as its token stream (src/lib.rs lines
464-515): row-major walk with style-change-only escapes and a final reset
when a style is still open. -/
def StyledFrameBuffer.toTokens (fb : StyledFrameBuffer) : List AnsiToken :=
  let res := (List.range fb.height).foldl fb.rowStep ([], (none, none))
  res.1 ++ (if res.2.1.isSome || res.2.2.isSome then [AnsiToken.reset] else [])

/-- `StyledFrameBuffer::to_string` (src/lib.rs lines 464-515): the
concatenated text of the token stream. -/
def StyledFrameBuffer.to_string (fb : StyledFrameBuffer) : String :=
  fb.toTokens.foldl (fun s t => s ++ t.render) ""

/-- Whether a token is a foreground escape sequence (a named foreground
color code or the default-foreground code). -/
def AnsiToken.isFg : AnsiToken → Bool
  | .fgEsc _ => true
  | .fgDefault => true
  | _ => false

/-- Whether a token is a background escape sequence. -/
def AnsiToken.isBg : AnsiToken → Bool
  | .bgEsc _ => true
  | .bgDefault => true
  | _ => false

/-- Number of foreground escape sequences in a token stream. -/
def countFg (l : List AnsiToken) : Nat := l.countP (fun t => t.isFg)

/-- Number of background escape sequences in a token stream. -/
def countBg (l : List AnsiToken) : Nat := l.countP (fun t => t.isBg)

/-! ## Braille encoder (src/lib.rs lines 730-859) -/

/-- `ConversionError` (src/lib.rs lines 731-735). -/
inductive ConversionError where
  | InvalidDimensions
  | ImageTooLarge
deriving DecidableEq, Repr

/-- A grayscale image (`image::GrayImage`): `u8` luminance samples,
row-major. -/
structure GrayImage where
  width : Nat
  height : Nat
  data : List Nat
deriving DecidableEq, Repr

/-- `GrayImage::new(w, h)`: an all-zero (black) image. -/
def GrayImage.new (width height : Nat) : GrayImage :=
  ⟨width, height, List.replicate (width * height) 0⟩

/-- `img.get_pixel(x, y).0[0]`: the luminance sample at `(x, y)`. -/
def GrayImage.get_pixel (img : GrayImage) (x y : Nat) : Nat :=
  img.data.getD (y * img.width + x) 0

/-- Modelled from the spec: `image::imageops::resize` with
`FilterType::Triangle` is external library code absent from this
repository ("resize using a smooth (triangle/bilinear-class) filter").
Modelled as coordinate point-sampling, which produces the requested
dimensions and agrees with any normalized weighted-average filter on
constant images — the two facts the claims rely on. -/
def resizeTriangle (img : GrayImage) (new_w new_h : Nat) : GrayImage :=
  ⟨new_w, new_h,
    (List.range (new_w * new_h)).map fun i =>
      img.get_pixel ((i % new_w) * img.width / new_w) ((i / new_w) * img.height / new_h)⟩

/-- `load_and_resize_image` (src/lib.rs lines 774-789): computes the
non-upscaling uniform scale and resizes.  The `f32` arithmetic is modelled
exactly over `ℚ`; `as u32` on a non-negative value truncates, i.e. floors. -/
def load_and_resize_image (img : GrayImage) (max_width max_height : Nat) : GrayImage :=
  let w := img.width
  let h := img.height
  if w = 0 ∨ h = 0 then GrayImage.new 1 1
  else
    let scale_x : ℚ := (max_width : ℚ) / (w : ℚ)
    let scale_y : ℚ := (max_height : ℚ) / (h : ℚ)
    let scale := min (min scale_x scale_y) 1
    let new_w := max (Int.toNat ⌊(w : ℚ) * scale⌋) 1
    let new_h := max (Int.toNat ⌊(h : ℚ) * scale⌋) 1
    resizeTriangle img new_w new_h

/-- `pixels_to_braille_with_threshold` (src/lib.rs lines 762-771): a dot bit
is set only when the pixel strictly exceeds the threshold; the code is
always a valid scalar in `U+2800..U+28FF` (`from_u32(..).unwrap_or(' ')`). -/
def pixels_to_braille_with_threshold (block : List Nat) (threshold : Nat) : Char :=
  let mapping : List Nat := [0, 1, 2, 6, 3, 4, 5, 7]
  let code := (block.zip mapping).foldl
    (fun c pm => if pm.1 > threshold then c ||| (1 <<< pm.2) else c) 0x2800
  if code.isValidChar then Char.ofNat code else ' '

/-- `image_to_braille_fb_with_threshold` (src/lib.rs lines 825-859). -/
def image_to_braille_fb_with_threshold (img : GrayImage) (max_width max_height threshold : Nat) :
    Except ConversionError FrameBuffer :=
  if max_width = 0 ∨ max_height = 0 then .error .InvalidDimensions
  else
    let img := load_and_resize_image img (max_width * 2) (max_height * 4)
    let w := img.width
    let h := img.height
    let fb_w := (w + 1) / 2
    let fb_h := (h + 3) / 4
    let fb := (List.range fb_h).foldl (fun fb bY =>
      (List.range fb_w).foldl (fun fb bX =>
        let block := (List.range 8).map fun i =>
          let dy := i / 2
          let dx := i % 2
          if bX * 2 + dx < w ∧ bY * 4 + dy < h then
            img.get_pixel (bX * 2 + dx) (bY * 4 + dy)
          else 0
        let ch := pixels_to_braille_with_threshold block threshold
        fb.set bX bY ch) fb) (FrameBuffer.new fb_w fb_h)
    .ok fb

/-! ## Rendering engine (src/renderer.rs) -/

/-- `SmartRenderer` state (src/renderer.rs lines 53-76).  The unused
`page_cache` / `output_buffer` / `render_queue` fields (never read by any
rendering path) are omitted.  `terminal_size` is a `u16` pair, the rest are
`usize`. -/
structure SmartRenderer where
  terminal_size : Nat × Nat
  workspace_size : Nat × Nat
  workspace_offset : Nat × Nat
  last_buffer : StyledFrameBuffer
  dirty_regions : List Rect
  force_full_refresh : Bool
  page_size : Nat
deriving Repr

/-- crossterm `cursor::MoveTo(col, row)`: emits `ESC[row+1;col+1H`. -/
def moveTo (col row : Nat) : String :=
  "\x1b[" ++ toString (row + 1) ++ ";" ++ toString (col + 1) ++ "H"

/-- crossterm `terminal::Clear(ClearType::All)`: emits `ESC[2J`. -/
def clearAll : String := "\x1b[2J"

/-- `SmartRenderer::terminal_to_workspace` (src/renderer.rs lines 146-160). -/
def SmartRenderer.terminal_to_workspace (r : SmartRenderer) (x y : Nat) :
    Option (Nat × Nat) :=
  if x ≥ r.workspace_offset.1 ∧ y ≥ r.workspace_offset.2 then
    let workspace_x := x - r.workspace_offset.1
    let workspace_y := y - r.workspace_offset.2
    if workspace_x < r.workspace_size.1 ∧ workspace_y < r.workspace_size.2 then
      some (workspace_x, workspace_y)
    else none
  else none

/-- `SmartRenderer::workspace_to_terminal` (src/renderer.rs lines 163-168):
the sums are cast to `u16`, hence the `% 65536`. -/
def SmartRenderer.workspace_to_terminal (r : SmartRenderer) (x y : Nat) : Nat × Nat :=
  ((x + r.workspace_offset.1) % 65536, (y + r.workspace_offset.2) % 65536)

/-- `SmartRenderer::mark_dirty` (src/renderer.rs lines 171-183). -/
def SmartRenderer.mark_dirty (r : SmartRenderer) (rect : Rect) : SmartRenderer :=
  let clamped_rect := Rect.mk
    (min rect.x r.workspace_size.1)
    (min rect.y r.workspace_size.2)
    (min rect.width (r.workspace_size.1 - rect.x))
    (min rect.height (r.workspace_size.2 - rect.y))
  if clamped_rect.width > 0 ∧ clamped_rect.height > 0 then
    { r with dirty_regions := r.dirty_regions ++ [clamped_rect] }
  else r

/-- `SmartRenderer::draw_workspace_border` (src/renderer.rs lines 589-643):
the cyan box-drawing frame, with segments omitted at terminal edges. -/
def SmartRenderer.draw_workspace_border (r : SmartRenderer) : String :=
  let border_color := "\x1b[36m"
  let reset_color := "\x1b[0m"
  let top_y := r.workspace_offset.2 - 1
  let top :=
    if top_y < r.terminal_size.2 then
      moveTo (r.workspace_offset.1 - 1) top_y ++
        border_color ++ "┌" ++ String.join (List.replicate r.workspace_size.1 "─") ++
        "┐" ++ reset_color
    else ""
  let sides := (List.range r.workspace_size.2).foldl (fun acc y =>
    let term_y := (r.workspace_offset.2 + y) % 65536
    let leftPart :=
      if r.workspace_offset.1 > 0 then
        moveTo (r.workspace_offset.1 - 1) term_y ++ border_color ++ "│" ++ reset_color
      else ""
    let right_x := (r.workspace_offset.1 + r.workspace_size.1) % 65536
    let rightPart :=
      if right_x < r.terminal_size.1 then
        moveTo right_x term_y ++ border_color ++ "│" ++ reset_color
      else ""
    acc ++ leftPart ++ rightPart) ""
  let bottom_y := (r.workspace_offset.2 + r.workspace_size.2) % 65536
  let bottom :=
    if bottom_y < r.terminal_size.2 then
      moveTo (r.workspace_offset.1 - 1) bottom_y ++
        border_color ++ "└" ++ String.join (List.replicate r.workspace_size.1 "─") ++
        "┘" ++ reset_color
    else ""
  top ++ sides ++ bottom

/-- `SmartRenderer::render_full` (src/renderer.rs lines 240-259): clear,
border, then every cell with a cursor move before it. -/
def SmartRenderer.render_full (r : SmartRenderer) (buffer : StyledFrameBuffer) : String :=
  clearAll ++ r.draw_workspace_border ++
    (List.range buffer.height).foldl (fun acc y =>
      (List.range buffer.width).foldl (fun acc x =>
        let styled_char := buffer.get x y
        let t := r.workspace_to_terminal x y
        acc ++ moveTo t.1 t.2 ++ styled_char.to_string) acc) ""

/-- `SmartRenderer::optimize_dirty_regions` (src/renderer.rs lines 469-482). -/
def SmartRenderer.optimize_dirty_regions (r : SmartRenderer) : List Rect :=
  if r.dirty_regions.length ≤ 1 then r.dirty_regions
  else if r.dirty_regions.length > 20 then
    [Rect.mk 0 0 r.workspace_size.1 r.workspace_size.2]
  else r.dirty_regions

/-- `SmartRenderer::render_region` (src/renderer.rs lines 337-366): rows of
the region that differ from `last_buffer` are re-emitted whole. -/
def SmartRenderer.render_region (r : SmartRenderer) (buffer : StyledFrameBuffer)
    (region : Rect) : String :=
  (rangeFromTo region.y (min (region.y + region.height) buffer.height)).foldl (fun acc y =>
    let xs := rangeFromTo region.x (min (region.x + region.width) buffer.width)
    let line_changed := xs.any fun x => buffer.get x y ≠ r.last_buffer.get x y
    if line_changed then
      let t := r.workspace_to_terminal region.x y
      let line_string := xs.foldl (fun s x => s ++ (buffer.get x y).to_string) ""
      acc ++ moveTo t.1 t.2 ++ line_string
    else acc) ""

/-- `SmartRenderer::render_incremental` (src/renderer.rs lines 301-310). -/
def SmartRenderer.render_incremental (r : SmartRenderer) (buffer : StyledFrameBuffer) :
    String :=
  r.optimize_dirty_regions.foldl (fun acc region => acc ++ r.render_region buffer region) ""

/-- The page partition built identically by `render_full_paged`
(src/renderer.rs lines 266-281) and `identify_dirty_pages` (lines 369-391):
fixed-size squares clipped at the right and bottom edges, in row-major page
order. -/
def pageRegions (buffer : StyledFrameBuffer) (page_size : Nat) : List Rect :=
  let pages_x := (buffer.width + page_size - 1) / page_size
  let pages_y := (buffer.height + page_size - 1) / page_size
  (List.range pages_y).flatMap fun page_y =>
    (List.range pages_x).map fun page_x =>
      let start_x := page_x * page_size
      let start_y := page_y * page_size
      let end_x := min (start_x + page_size) buffer.width
      let end_y := min (start_y + page_size) buffer.height
      Rect.mk start_x start_y (end_x - start_x) (end_y - start_y)

/-- The fixed 4-point sample set of `is_page_dirty` (src/renderer.rs lines
396-401): top-left corner, center, bottom-right corner, quarter-point. -/
def samplePoints (page_rect : Rect) : List (Nat × Nat) :=
  [(0, 0),
   (page_rect.width / 2, page_rect.height / 2),
   (page_rect.width - 1, page_rect.height - 1),
   (page_rect.width / 4, page_rect.height / 4)]

/-- `SmartRenderer::is_page_dirty` (src/renderer.rs lines 394-416): a sample
point counts only when in bounds of both buffers. -/
def SmartRenderer.is_page_dirty (r : SmartRenderer) (buffer : StyledFrameBuffer)
    (page_rect : Rect) : Bool :=
  (samplePoints page_rect).any fun d =>
    let x := page_rect.x + d.1
    let y := page_rect.y + d.2
    decide (x < buffer.width) && decide (y < buffer.height) &&
    decide (x < r.last_buffer.width) && decide (y < r.last_buffer.height) &&
    decide (buffer.get x y ≠ r.last_buffer.get x y)

/-- `SmartRenderer::identify_dirty_pages` (src/renderer.rs lines 369-391). -/
def SmartRenderer.identify_dirty_pages (r : SmartRenderer) (buffer : StyledFrameBuffer) :
    List Rect :=
  (pageRegions buffer r.page_size).filter fun page_rect => r.is_page_dirty buffer page_rect

/-- `SmartRenderer::render_page_region_static` (src/renderer.rs lines
419-460): per row, a cursor move then style-batched cell output ending in a
reset. -/
def renderPageRegionStatic (buffer : StyledFrameBuffer) (region : Rect)
    (workspace_offset : Nat × Nat) : String :=
  (rangeFromTo region.y (min (region.y + region.height) buffer.height)).foldl (fun out y =>
    let term_x := (region.x + workspace_offset.1) % 65536
    let term_y := (y + workspace_offset.2) % 65536
    let out := out ++ "\x1b[" ++ toString (term_y + 1) ++ ";" ++ toString (term_x + 1) ++ "H"
    let step := (rangeFromTo region.x (min (region.x + region.width) buffer.width)).foldl
      (fun st x =>
        let styled_char := buffer.get x y
        let char_style := (styled_char.fg_color, styled_char.bg_color)
        let st :=
          if st.1 ≠ some char_style then
            (some char_style, "", st.2.2 ++ st.2.1 ++ styled_char.get_style_codes)
          else st
        (st.1, st.2.1.push styled_char.ch, st.2.2))
      ((none : Option (Option Color × Option Color)), "", out)
    step.2.2 ++ step.2.1 ++ "\x1b[0m") ""

/-- `SmartRenderer::render_full_paged` (src/renderer.rs lines 262-298): the
page strings are computed independently and written in page order. -/
def SmartRenderer.render_full_paged (r : SmartRenderer) (buffer : StyledFrameBuffer) :
    String :=
  clearAll ++ r.draw_workspace_border ++
    (pageRegions buffer r.page_size).foldl
      (fun acc page_rect => acc ++ renderPageRegionStatic buffer page_rect r.workspace_offset)
      ""

/-- `SmartRenderer::render_incremental_paged` (src/renderer.rs lines
313-334): only the pages flagged dirty are re-emitted, in page order. -/
def SmartRenderer.render_incremental_paged (r : SmartRenderer) (buffer : StyledFrameBuffer) :
    String :=
  (r.identify_dirty_pages buffer).foldl
    (fun acc page_rect => acc ++ renderPageRegionStatic buffer page_rect r.workspace_offset)
    ""

/-- `SmartRenderer::render` (src/renderer.rs lines 193-214), as a function
from the engine state and grid to the call's result, the new engine state
and the text written to the terminal.  The size mismatch fails before any
output or state change; a successful call retains a clone of the grid as
`last_buffer` and clears the dirty queue. -/
def SmartRenderer.render (r : SmartRenderer) (buffer : StyledFrameBuffer) :
    Except String Unit × SmartRenderer × String :=
  if buffer.width ≠ r.workspace_size.1 ∨ buffer.height ≠ r.workspace_size.2 then
    (.error "Buffer size mismatch with workspace", r, "")
  else
    let step :=
      if r.force_full_refresh then
        ({ r with force_full_refresh := false }, r.render_full buffer)
      else (r, r.render_incremental buffer)
    (.ok (), { step.1 with last_buffer := buffer, dirty_regions := [] }, step.2)

/-- `SmartRenderer::render_paged` (src/renderer.rs lines 217-237). -/
def SmartRenderer.render_paged (r : SmartRenderer) (buffer : StyledFrameBuffer) :
    Except String Unit × SmartRenderer × String :=
  if buffer.width ≠ r.workspace_size.1 ∨ buffer.height ≠ r.workspace_size.2 then
    (.error "Buffer size mismatch with workspace", r, "")
  else
    let step :=
      if r.force_full_refresh then
        ({ r with force_full_refresh := false }, r.render_full_paged buffer)
      else (r, r.render_incremental_paged buffer)
    (.ok (), { step.1 with last_buffer := buffer, dirty_regions := [] }, step.2)

/-! ## Global buffer pools (src/lib.rs lines 114-140, 326-346, 911-912) -/

/-- One step against a process-wide pool, identified by what the pooled code
paths do to it.  `alloc` is `FrameBuffer::new_pooled` (src/lib.rs lines
114-129): `pool.pop()` removes the last pooled buffer (or misses).
`release` is `FrameBuffer::release_to_pool` (src/lib.rs lines 132-140) for
a buffer of the given length and backing capacity. -/
inductive PoolOp where
  | alloc (width height : Nat)
  | release (len cap : Nat)
deriving DecidableEq, Repr

/-- The pool holds the capacities of the pooled buffers, in stack order
(`Vec<Vec<char>>`: push at the end, pop from the end). -/
def poolStep (pool : List Nat) : PoolOp → List Nat
  | .alloc _ _ => pool.dropLast
  | .release len cap =>
    if cap ≥ len ∧ cap ≤ 1024 * 1024 then
      if pool.length < 16 then pool ++ [cap] else pool
    else pool

/-- The `BUFFER_POOL` contents after a sequence of pooled allocations and
releases, starting from the empty pool it is initialized with
(src/lib.rs line 911). -/
def runPool (ops : List PoolOp) : List Nat := ops.foldl poolStep []

/-- The only code path touching `STYLED_BUFFER_POOL` (src/lib.rs line 912)
is the pop in `StyledFrameBuffer::new_pooled` (src/lib.rs lines 326-346);
no styled release path exists, so its steps are allocations only. -/
def styledPoolStep (pool : List Nat) (_ : Nat × Nat) : List Nat := pool.dropLast

/-- The `STYLED_BUFFER_POOL` contents after a sequence of pooled styled
allocations, starting from the empty pool it is initialized with. -/
def runStyledPool (ops : List (Nat × Nat)) : List Nat := ops.foldl styledPoolStep []

/-! ## Helper lemmas -/

/-- Row-major indices of in-bounds cells are injective. -/
theorem rowMajorInj {w x x' y y' : Nat} (hx : x < w) (hx' : x' < w)
    (h : y * w + x = y' * w + x') : x = x' ∧ y = y' := by
  have hw : 0 < w := Nat.lt_of_le_of_lt (Nat.zero_le x) hx
  have harr : x + w * y = x' + w * y' := by
    rw [Nat.mul_comm w y, Nat.mul_comm w y']; omega
  have h1 : (x + w * y) / w = x / w + y := Nat.add_mul_div_left x y hw
  have h2 : (x' + w * y') / w = x' / w + y' := Nat.add_mul_div_left x' y' hw
  have hx0 : x / w = 0 := Nat.div_eq_of_lt hx
  have hx0' : x' / w = 0 := Nat.div_eq_of_lt hx'
  have hy : y = y' := by rw [harr] at h1; omega
  subst hy
  exact ⟨by omega, rfl⟩

/-- The row-major index of an in-bounds cell is within the backing store. -/
theorem rowMajorLt {w h x y : Nat} (hx : x < w) (hy : y < h) :
    y * w + x < w * h := by
  have h1 : y * w + x < (y + 1) * w := by rw [Nat.succ_mul]; omega
  have h2 : (y + 1) * w ≤ h * w := Nat.mul_le_mul_right w hy
  have h3 : h * w = w * h := Nat.mul_comm h w
  omega

/-- `set` never changes the grid's dimensions. -/
theorem StyledFrameBuffer.set_width (fb : StyledFrameBuffer) (x y : Nat) (v : StyledChar) :
    (fb.set x y v).width = fb.width ∧ (fb.set x y v).height = fb.height ∧
    (fb.set x y v).data.length = fb.data.length := by
  simp only [StyledFrameBuffer.set]
  split
  · split
    · exact ⟨rfl, rfl, fb.data.length_set _ _⟩
    · exact ⟨rfl, rfl, rfl⟩
  · exact ⟨rfl, rfl, rfl⟩

/-- An in-bounds `get` reads the backing store at the row-major index. -/
theorem StyledFrameBuffer.get_eq_getD (fb : StyledFrameBuffer) {x y : Nat}
    (hx : x < fb.width) (hy : y < fb.height) :
    fb.get x y = fb.data.getD (y * fb.width + x) StyledChar.default := by
  rw [StyledFrameBuffer.get, if_pos ⟨hx, hy⟩]

/-- On a well-formed grid, an in-bounds `set` of a genuinely new value
mutates the cell and appends exactly the 1×1 dirty rect. -/
theorem StyledFrameBuffer.set_changes (fb : StyledFrameBuffer) {x y : Nat} {v : StyledChar}
    (hx : x < fb.width) (hy : y < fb.height) (hne : v ≠ fb.get x y) :
    fb.set x y v =
      { fb with data := fb.data.set (y * fb.width + x) v,
                dirty_regions := fb.dirty_regions ++ [Rect.mk x y 1 1] } := by
  rw [StyledFrameBuffer.set, if_pos ⟨hx, hy⟩]
  rw [if_pos (by rw [← fb.get_eq_getD hx hy]; exact fun h => hne h.symm)]
  rfl

/-- On a well-formed grid, an in-bounds `set` of the stored value is a
no-op. -/
theorem StyledFrameBuffer.set_same (fb : StyledFrameBuffer) {x y : Nat} {v : StyledChar}
    (hx : x < fb.width) (hy : y < fb.height) (heq : fb.get x y = v) :
    fb.set x y v = fb := by
  rw [StyledFrameBuffer.set, if_pos ⟨hx, hy⟩]
  rw [if_neg (by rw [← fb.get_eq_getD hx hy, heq]; exact fun h => h rfl)]

/-- Reading back an in-bounds cell just written returns the written value,
on a well-formed grid. -/
theorem StyledFrameBuffer.get_set_self (fb : StyledFrameBuffer) {x y : Nat} (v : StyledChar)
    (hlen : fb.data.length = fb.width * fb.height)
    (hx : x < fb.width) (hy : y < fb.height) :
    (fb.set x y v).get x y = v := by
  by_cases heq : fb.get x y = v
  · rw [fb.set_same hx hy heq]; exact heq
  · rw [fb.set_changes hx hy (fun h => heq h.symm)]
    have hidx : y * fb.width + x < fb.data.length := by
      rw [hlen]; exact rowMajorLt hx hy
    show StyledFrameBuffer.get _ x y = v
    rw [StyledFrameBuffer.get]
    simp only [if_pos (And.intro hx hy)]
    rw [List.getD_eq_getElem?_getD, List.getElem?_set_self hidx]
    rfl

/-- A `set` at `(x, y)` leaves every other cell's `get` unchanged. -/
theorem StyledFrameBuffer.get_set_other (fb : StyledFrameBuffer) {x y x' y' : Nat}
    (v : StyledChar) (hne : ¬(x' = x ∧ y' = y)) :
    (fb.set x y v).get x' y' = fb.get x' y' := by
  by_cases hin : x < fb.width ∧ y < fb.height
  · by_cases hch : fb.get x y = v
    · rw [fb.set_same hin.1 hin.2 hch]
    · rw [fb.set_changes hin.1 hin.2 (fun h => hch h.symm)]
      dsimp only [StyledFrameBuffer.get, StyledFrameBuffer.mark_dirty]
      split
      · next hin' =>
        rw [List.getD_eq_getElem?_getD, List.getD_eq_getElem?_getD]
        rw [List.getElem?_set_ne]
        intro hidx
        rcases rowMajorInj hin.1 hin'.1 hidx with ⟨hx, hy⟩
        exact hne ⟨hx.symm, hy.symm⟩
      · rfl
  · rw [StyledFrameBuffer.set, if_neg hin]

/-! ## Claims -/

/-- Claim C4: for every grid (plain or styled) and every coordinate outside
its bounds, `get` returns the default cell (a space / the default
`StyledChar`) and `set` never faults: it is a no-op changing neither the
stored cells nor the styled grid's dirty list. -/
theorem claim_c4_out_of_bounds_get_set :
    (∀ (fb : StyledFrameBuffer) (x y : Nat) (v : StyledChar),
      ¬(x < fb.width ∧ y < fb.height) →
        fb.get x y = StyledChar.default ∧ fb.set x y v = fb) ∧
    (∀ (fb : FrameBuffer) (x y : Nat) (c : Char),
      ¬(x < fb.width ∧ y < fb.height) →
        fb.get x y = ' ' ∧ fb.set x y c = fb) := by
  constructor
  · intro fb x y v h
    exact ⟨by rw [StyledFrameBuffer.get, if_neg h],
           by rw [StyledFrameBuffer.set, if_neg h]⟩
  · intro fb x y c h
    exact ⟨by rw [FrameBuffer.get, if_neg h], by rw [FrameBuffer.set, if_neg h]⟩

/-- Witness for C4 at a 2×2 styled grid and a 2×2 plain grid read and
written at the out-of-bounds coordinate (5, 0). -/
theorem claim_c4_witness :
    (StyledFrameBuffer.new 2 2).get 5 0 = StyledChar.default ∧
    (StyledFrameBuffer.new 2 2).set 5 0 (StyledChar.new 'x') = StyledFrameBuffer.new 2 2 ∧
    (FrameBuffer.new 2 2).get 5 0 = ' ' ∧
    (FrameBuffer.new 2 2).set 5 0 'x' = FrameBuffer.new 2 2 := by
  have h1 := claim_c4_out_of_bounds_get_set.1 (StyledFrameBuffer.new 2 2) 5 0
    (StyledChar.new 'x') (by decide)
  have h2 := claim_c4_out_of_bounds_get_set.2 (FrameBuffer.new 2 2) 5 0 'x' (by decide)
  exact ⟨h1.1, h1.2, h2.1, h2.2⟩

/-- Claim C7: on a well-formed styled grid, writing a genuinely new value
`v` twice in succession at an in-bounds cell appends exactly one dirty
entry: the first write records dirt and mutates the cell, the second write
is a no-op. -/
theorem claim_c7_double_write_one_dirty (fb : StyledFrameBuffer) (x y : Nat) (v : StyledChar)
    (hlen : fb.data.length = fb.width * fb.height)
    (hx : x < fb.width) (hy : y < fb.height) (hne : v ≠ fb.get x y) :
    (fb.set x y v).set x y v = fb.set x y v ∧
    (fb.set x y v).dirty_regions = fb.dirty_regions ++ [Rect.mk x y 1 1] := by
  rcases (fb.set_width x y v) with ⟨hw, hh, _⟩
  constructor
  · exact (fb.set x y v).set_same (hw ▸ hx) (hh ▸ hy) (fb.get_set_self v hlen hx hy)
  · rw [fb.set_changes hx hy hne]

/-- Witness for C7 on a fresh 2×2 styled grid written twice at (1, 0). -/
theorem claim_c7_witness :
    ((StyledFrameBuffer.new 2 2).set 1 0 (StyledChar.new 'z')).set 1 0 (StyledChar.new 'z') =
      (StyledFrameBuffer.new 2 2).set 1 0 (StyledChar.new 'z') ∧
    ((StyledFrameBuffer.new 2 2).set 1 0 (StyledChar.new 'z')).dirty_regions =
      [Rect.mk 1 0 1 1] :=
  claim_c7_double_write_one_dirty (StyledFrameBuffer.new 2 2) 1 0 (StyledChar.new 'z')
    (by decide) (by decide) (by decide) (by decide)

/-- Claim C8: `terminal_to_workspace` inverts `workspace_to_terminal` on
in-workspace coordinates whose terminal image does not overflow `u16`, and
returns `none` exactly on the terminal coordinates before the offset or
at/beyond `offset + workspace_size` in either axis. -/
theorem claim_c8_coordinate_round_trip (r : SmartRenderer) :
    (∀ x y : Nat, x < r.workspace_size.1 → y < r.workspace_size.2 →
      x + r.workspace_offset.1 < 65536 → y + r.workspace_offset.2 < 65536 →
      r.terminal_to_workspace (r.workspace_to_terminal x y).1
        (r.workspace_to_terminal x y).2 = some (x, y)) ∧
    (∀ tx ty : Nat, r.terminal_to_workspace tx ty = none ↔
      (tx < r.workspace_offset.1 ∨ ty < r.workspace_offset.2 ∨
       r.workspace_offset.1 + r.workspace_size.1 ≤ tx ∨
       r.workspace_offset.2 + r.workspace_size.2 ≤ ty)) := by
  constructor
  · intro x y hx hy hox hoy
    rw [SmartRenderer.workspace_to_terminal]
    simp only [Nat.mod_eq_of_lt hox, Nat.mod_eq_of_lt hoy]
    rw [SmartRenderer.terminal_to_workspace,
      if_pos ⟨Nat.le_add_left _ _, Nat.le_add_left _ _⟩,
      if_pos ⟨by omega, by omega⟩]
    rw [Nat.add_sub_cancel, Nat.add_sub_cancel]
  · intro tx ty
    rw [SmartRenderer.terminal_to_workspace]
    constructor
    · intro h
      by_contra hout
      push_neg at hout
      rw [if_pos ⟨hout.1, hout.2.1⟩, if_pos ⟨by omega, by omega⟩] at h
      exact Option.some_ne_none _ h
    · intro h
      split
      · next hin =>
        rw [if_neg]
        omega
      · rfl

/-- Witness for C8 on a concrete engine with offset (3, 2) and workspace
4×3, at workspace coordinate (1, 2) and terminal coordinate (0, 0). -/
theorem claim_c8_witness :
    (SmartRenderer.terminal_to_workspace
      ⟨(10, 8), (4, 3), (3, 2), StyledFrameBuffer.new 4 3, [], true, 64⟩ 4 4 = some (1, 2)) ∧
    (SmartRenderer.terminal_to_workspace
      ⟨(10, 8), (4, 3), (3, 2), StyledFrameBuffer.new 4 3, [], true, 64⟩ 0 0 = none) := by
  have h := claim_c8_coordinate_round_trip
    ⟨(10, 8), (4, 3), (3, 2), StyledFrameBuffer.new 4 3, [], true, 64⟩
  exact ⟨h.1 1 2 (by decide) (by decide) (by decide) (by decide),
         (h.2 0 0).mpr (by decide)⟩

/-- Claim C9: starting from the empty pools the process initializes, each
buffer pool never holds more than 16 buffers after any sequence of pooled
allocations and releases, every pooled capacity is within the 1 MiB cap,
and a release of an over-cap buffer, or a release into a full pool, drops
the buffer (leaves the pool unchanged). -/
theorem claim_c9_pool_bounds :
    (∀ ops : List PoolOp, (runPool ops).length ≤ 16 ∧
      ∀ c ∈ runPool ops, c ≤ 1024 * 1024) ∧
    (∀ (pool : List Nat) (len cap : Nat), 1024 * 1024 < cap →
      poolStep pool (.release len cap) = pool) ∧
    (∀ (pool : List Nat) (len cap : Nat), 16 ≤ pool.length →
      poolStep pool (.release len cap) = pool) ∧
    (∀ ops : List (Nat × Nat), (runStyledPool ops).length ≤ 16) := by
  have hstep : ∀ (pool : List Nat) (op : PoolOp),
      (pool.length ≤ 16 ∧ ∀ c ∈ pool, c ≤ 1024 * 1024) →
      ((poolStep pool op).length ≤ 16 ∧ ∀ c ∈ poolStep pool op, c ≤ 1024 * 1024) := by
    intro pool op ⟨hl, hc⟩
    cases op with
    | alloc w h =>
      refine ⟨?_, fun c hm => hc c (List.dropLast_sublist pool |>.mem hm)⟩
      rw [poolStep, List.length_dropLast]; omega
    | release len cap =>
      rw [poolStep]
      split
      · next hcap =>
        split
        · next hfull =>
          refine ⟨by rw [List.length_append, List.length_singleton]; omega, fun c hm => ?_⟩
          rcases List.mem_append.mp hm with hm | hm
          · exact hc c hm
          · simpa using (List.mem_singleton.mp hm) ▸ hcap.2
        · exact ⟨hl, hc⟩
      · exact ⟨hl, hc⟩
  refine ⟨?_, ?_, ?_, ?_⟩
  · intro ops
    rw [runPool]
    have : ∀ (l : List PoolOp) (pool : List Nat),
        (pool.length ≤ 16 ∧ ∀ c ∈ pool, c ≤ 1024 * 1024) →
        ((l.foldl poolStep pool).length ≤ 16 ∧
          ∀ c ∈ l.foldl poolStep pool, c ≤ 1024 * 1024) := by
      intro l
      induction l with
      | nil => exact fun pool h => h
      | cons op rest ih => exact fun pool h => ih (poolStep pool op) (hstep pool op h)
    exact this ops [] ⟨by simp, by simp⟩
  · intro pool len cap hcap
    rw [poolStep, if_neg]
    omega
  · intro pool len cap hfull
    rw [poolStep]
    split
    · rw [if_neg]; omega
    · rfl
  · intro ops
    rw [runStyledPool]
    have : ∀ (l : List (Nat × Nat)) (pool : List Nat), pool.length ≤ 16 →
        (l.foldl styledPoolStep pool).length ≤ 16 := by
      intro l
      induction l with
      | nil => exact fun pool h => h
      | cons op rest ih =>
        intro pool h
        refine ih (styledPoolStep pool op) ?_
        rw [styledPoolStep, List.length_dropLast]; omega
    exact this ops [] (by simp)

/-- Witness for C9: a concrete release sequence keeps the pool within
bounds, an over-cap release into a small pool is dropped, and a release
into a full 16-element pool is dropped. -/
theorem claim_c9_witness :
    (runPool [PoolOp.release 0 10, PoolOp.release 0 20]).length ≤ 16 ∧
    poolStep [10] (PoolOp.release 0 (1024 * 1024 + 1)) = [10] ∧
    poolStep (List.replicate 16 10) (PoolOp.release 0 10) = List.replicate 16 10 := by
  refine ⟨(claim_c9_pool_bounds.1 [PoolOp.release 0 10, PoolOp.release 0 20]).1,
    claim_c9_pool_bounds.2.1 [10] 0 (1024 * 1024 + 1) (by omega),
    claim_c9_pool_bounds.2.2.1 (List.replicate 16 10) 0 10 (by simp)⟩

/-- After a size-changing `resize`, an in-bounds `get` reads the preserved
top-left overlap or the default cell. -/
theorem StyledFrameBuffer.resize_get (fb : StyledFrameBuffer) {nw nh x y : Nat}
    (hne : ¬(nw = fb.width ∧ nh = fb.height)) (hx : x < nw) (hy : y < nh) :
    (fb.resize nw nh).get x y =
      if x < min nw fb.width ∧ y < min nh fb.height then fb.get x y
      else StyledChar.default := by
  have hnw : 0 < nw := Nat.lt_of_le_of_lt (Nat.zero_le x) hx
  have hmod : (y * nw + x) % nw = x := by
    rw [show y * nw + x = x + nw * y by ring, Nat.add_mul_mod_self_left]
    exact Nat.mod_eq_of_lt hx
  have hdiv : (y * nw + x) / nw = y := by
    rw [show y * nw + x = x + nw * y by ring, Nat.add_mul_div_left x y hnw,
      Nat.div_eq_of_lt hx, Nat.zero_add]
  rw [StyledFrameBuffer.resize, if_neg hne]
  dsimp only [StyledFrameBuffer.force_refresh, StyledFrameBuffer.mark_dirty,
    StyledFrameBuffer.get]
  rw [if_pos ⟨hx, hy⟩]
  rw [List.getD_eq_getElem?_getD, List.getElem?_map, List.getElem?_range (rowMajorLt hx hy)]
  dsimp only [Option.map_some', Option.getD_some]
  rw [hmod, hdiv]

/-- Counterexample to claim C2 as stated: resizing a 2×1 grid to its own
size 2×1 appends no dirty rect at all (the code returns early on an
unchanged size), while the claim demands one full-grid dirty rect even
then. -/
theorem claim_c2_counterexample :
    ¬ (StyledFrameBuffer.dirty_regions
        (StyledFrameBuffer.resize ⟨2, 1, [StyledChar.new 'a', StyledChar.new 'b'], []⟩ 2 1) =
       [Rect.mk 0 0 2 1]) := by
  decide

/-- Claim C2 (amended): when the requested size differs from the current
size, `resize` preserves the top-left `min(old, new)` overlap, fills every
other in-bounds cell with the default blank cell, and appends one dirty
rect covering the whole grid; when the requested size equals the current
size, `resize` returns immediately, changing nothing and appending no dirty
rect. -/
theorem claim_c2_resize_semantics (fb : StyledFrameBuffer) (new_w new_h : Nat) :
    (new_w = fb.width ∧ new_h = fb.height → fb.resize new_w new_h = fb) ∧
    (¬(new_w = fb.width ∧ new_h = fb.height) →
      (∀ x y, x < min fb.width new_w → y < min fb.height new_h →
        (fb.resize new_w new_h).get x y = fb.get x y) ∧
      (∀ x y, x < new_w → y < new_h →
        ¬(x < min fb.width new_w ∧ y < min fb.height new_h) →
        (fb.resize new_w new_h).get x y = StyledChar.default) ∧
      (fb.resize new_w new_h).dirty_regions =
        fb.dirty_regions ++ [Rect.mk 0 0 new_w new_h]) := by
  constructor
  · intro h
    rw [StyledFrameBuffer.resize, if_pos h]
  · intro hne
    refine ⟨?_, ?_, ?_⟩
    · intro x y hx hy
      rw [fb.resize_get hne (by omega) (by omega),
        if_pos ⟨by omega, by omega⟩]
    · intro x y hx hy hout
      rw [fb.resize_get hne hx hy, if_neg (by omega)]
    · rw [StyledFrameBuffer.resize, if_neg hne]
      dsimp only [StyledFrameBuffer.force_refresh, StyledFrameBuffer.mark_dirty]

/-- Witness for C2 on a 2×1 grid `[a, b]`: growing it to 3×1 preserves
`a`, `b`, blanks the new cell, and appends one full-grid dirty rect;
resizing it to its own 2×1 size is the identity. -/
theorem claim_c2_witness :
    (StyledFrameBuffer.resize ⟨2, 1, [StyledChar.new 'a', StyledChar.new 'b'], []⟩ 3 1).get 1 0 =
      StyledChar.new 'b' ∧
    (StyledFrameBuffer.resize ⟨2, 1, [StyledChar.new 'a', StyledChar.new 'b'], []⟩ 3 1).get 2 0 =
      StyledChar.default ∧
    StyledFrameBuffer.dirty_regions
      (StyledFrameBuffer.resize ⟨2, 1, [StyledChar.new 'a', StyledChar.new 'b'], []⟩ 3 1) =
      [Rect.mk 0 0 3 1] ∧
    StyledFrameBuffer.resize ⟨2, 1, [StyledChar.new 'a', StyledChar.new 'b'], []⟩ 2 1 =
      ⟨2, 1, [StyledChar.new 'a', StyledChar.new 'b'], []⟩ := by
  have h := claim_c2_resize_semantics ⟨2, 1, [StyledChar.new 'a', StyledChar.new 'b'], []⟩ 3 1
  have hg := (h.2 (by decide)).1 1 0 (by decide) (by decide)
  have hd := (h.2 (by decide)).2.1 2 0 (by decide) (by decide) (by decide)
  have hr := (h.2 (by decide)).2.2
  have hs := (claim_c2_resize_semantics ⟨2, 1, [StyledChar.new 'a', StyledChar.new 'b'], []⟩
    2 1).1 (by decide)
  exact ⟨by rw [hg]; decide, hd, by rw [hr]; rfl, hs⟩

/-- Claim C5: a page of the workspace partition is flagged dirty by the
paged incremental strategy exactly when one of the four sample points
(top-left corner, center, bottom-right corner, quarter-point), in bounds
of both the passed grid and the retained previous frame, differs between
the two; changes lying entirely outside the sample points do not flag the
page. -/
theorem claim_c5_page_sampling (r : SmartRenderer) (buffer : StyledFrameBuffer) (p : Rect)
    (hmem : p ∈ pageRegions buffer r.page_size) :
    (p ∈ r.identify_dirty_pages buffer ↔ r.is_page_dirty buffer p = true) ∧
    (r.is_page_dirty buffer p = true ↔ ∃ d ∈ samplePoints p,
      (p.x + d.1 < buffer.width ∧ p.y + d.2 < buffer.height ∧
       p.x + d.1 < r.last_buffer.width ∧ p.y + d.2 < r.last_buffer.height) ∧
      buffer.get (p.x + d.1) (p.y + d.2) ≠ r.last_buffer.get (p.x + d.1) (p.y + d.2)) := by
  constructor
  · rw [SmartRenderer.identify_dirty_pages]
    constructor
    · intro h
      exact (List.mem_filter.mp h).2
    · intro h
      exact List.mem_filter.mpr ⟨hmem, h⟩
  · rw [SmartRenderer.is_page_dirty, List.any_eq_true]
    constructor
    · rintro ⟨d, hd, hcond⟩
      simp only [Bool.and_eq_true, decide_eq_true_eq] at hcond
      obtain ⟨⟨⟨⟨h1, h2⟩, h3⟩, h4⟩, h5⟩ := hcond
      exact ⟨d, hd, ⟨h1, h2, h3, h4⟩, h5⟩
    · rintro ⟨d, hd, ⟨h1, h2, h3, h4⟩, h5⟩
      refine ⟨d, hd, ?_⟩
      simp only [Bool.and_eq_true, decide_eq_true_eq]
      exact ⟨⟨⟨⟨h1, h2⟩, h3⟩, h4⟩, h5⟩

/-- Witness for C5: for a 3×3 workspace forming a single 3×3 page, a grid
differing from the previous frame only at (1, 0) — a cell outside the four
sample points (0,0), (1,1), (2,2), (0,0) — the page is not flagged. -/
theorem claim_c5_witness :
    (Rect.mk 0 0 3 3 ∈
      SmartRenderer.identify_dirty_pages
        ⟨(80, 24), (3, 3), (0, 0), StyledFrameBuffer.new 3 3, [], false, 64⟩
        ((StyledFrameBuffer.new 3 3).set 1 0 (StyledChar.new 'x')) ↔
     SmartRenderer.is_page_dirty
        ⟨(80, 24), (3, 3), (0, 0), StyledFrameBuffer.new 3 3, [], false, 64⟩
        ((StyledFrameBuffer.new 3 3).set 1 0 (StyledChar.new 'x'))
        (Rect.mk 0 0 3 3) = true) ∧
    SmartRenderer.is_page_dirty
        ⟨(80, 24), (3, 3), (0, 0), StyledFrameBuffer.new 3 3, [], false, 64⟩
        ((StyledFrameBuffer.new 3 3).set 1 0 (StyledChar.new 'x'))
        (Rect.mk 0 0 3 3) = false := by
  refine ⟨(claim_c5_page_sampling
    ⟨(80, 24), (3, 3), (0, 0), StyledFrameBuffer.new 3 3, [], false, 64⟩
    ((StyledFrameBuffer.new 3 3).set 1 0 (StyledChar.new 'x'))
    (Rect.mk 0 0 3 3) (by decide)).1, by decide⟩

/-- Claim C6: converting a 4×8-pixel all-zero (black) grayscale image with
the Braille encoder at max dimensions 2×2 and threshold 128 succeeds and
yields a 2×2 grid in which every cell is the blank Braille codepoint
U+2800, since a dot bit is set only when the pixel strictly exceeds the
threshold. -/
theorem claim_c6_black_image_blank_braille :
    image_to_braille_fb_with_threshold (GrayImage.new 4 8) 2 2 128 =
      .ok ⟨2, 2, List.replicate 4 (Char.ofNat 0x2800)⟩ := by
  have h : load_and_resize_image (GrayImage.new 4 8) (2 * 2) (2 * 4) =
      resizeTriangle (GrayImage.new 4 8) 4 8 := by
    unfold load_and_resize_image
    norm_num [GrayImage.new]
    rfl
  simp only [image_to_braille_fb_with_threshold]
  rw [if_neg (by norm_num), h]
  rfl

/-- Claim C1: a render (plain or paged) with a grid whose dimensions differ
from the workspace size fails with the size-mismatch error, writes nothing
to the terminal, and leaves the engine state — in particular `last_buffer`
and the dirty queue — unchanged; a render with matching dimensions
succeeds, retains a clone of the rendered grid as `last_buffer`, and clears
the dirty queue. -/
theorem claim_c1_render_atomicity (r : SmartRenderer) (buffer : StyledFrameBuffer) :
    (¬(buffer.width = r.workspace_size.1 ∧ buffer.height = r.workspace_size.2) →
      (r.render buffer).1 = .error "Buffer size mismatch with workspace" ∧
      (r.render buffer).2.1 = r ∧ (r.render buffer).2.2 = "" ∧
      (r.render_paged buffer).1 = .error "Buffer size mismatch with workspace" ∧
      (r.render_paged buffer).2.1 = r ∧ (r.render_paged buffer).2.2 = "") ∧
    (buffer.width = r.workspace_size.1 ∧ buffer.height = r.workspace_size.2 →
      (r.render buffer).1 = .ok () ∧
      (r.render buffer).2.1.last_buffer = buffer ∧
      (r.render buffer).2.1.dirty_regions = [] ∧
      (r.render_paged buffer).1 = .ok () ∧
      (r.render_paged buffer).2.1.last_buffer = buffer ∧
      (r.render_paged buffer).2.1.dirty_regions = []) := by
  constructor
  · intro h
    have hc : buffer.width ≠ r.workspace_size.1 ∨ buffer.height ≠ r.workspace_size.2 := by
      by_cases h1 : buffer.width = r.workspace_size.1
      · exact Or.inr fun h2 => h ⟨h1, h2⟩
      · exact Or.inl h1
    rw [SmartRenderer.render, if_pos hc, SmartRenderer.render_paged, if_pos hc]
    exact ⟨rfl, rfl, rfl, rfl, rfl, rfl⟩
  · intro h
    have hc : ¬(buffer.width ≠ r.workspace_size.1 ∨ buffer.height ≠ r.workspace_size.2) := by
      rintro (h1 | h2)
      exacts [h1 h.1, h2 h.2]
    rw [SmartRenderer.render, if_neg hc, SmartRenderer.render_paged, if_neg hc]
    exact ⟨rfl, rfl, rfl, rfl, rfl, rfl⟩

/-- A concrete engine for the C1 witness: a 2×1 workspace at offset (0, 0)
inside an 80×24 terminal, past its first full refresh. -/
def c1Renderer : SmartRenderer :=
  ⟨(80, 24), (2, 1), (0, 0), StyledFrameBuffer.new 2 1, [], false, 64⟩

/-- Witness for C1: rendering a 3×1 grid into the 2×1 workspace fails with
no output and no state change (for both entry points), while rendering a
2×1 grid succeeds, retains it as `last_buffer`, and clears the dirty
queue. -/
theorem claim_c1_witness :
    ((c1Renderer.render (StyledFrameBuffer.new 3 1)).1 =
       .error "Buffer size mismatch with workspace" ∧
     (c1Renderer.render (StyledFrameBuffer.new 3 1)).2.1 = c1Renderer ∧
     (c1Renderer.render (StyledFrameBuffer.new 3 1)).2.2 = "" ∧
     (c1Renderer.render_paged (StyledFrameBuffer.new 3 1)).2.1 = c1Renderer) ∧
    ((c1Renderer.render (StyledFrameBuffer.new 2 1)).1 = .ok () ∧
     (c1Renderer.render (StyledFrameBuffer.new 2 1)).2.1.last_buffer =
       StyledFrameBuffer.new 2 1 ∧
     (c1Renderer.render (StyledFrameBuffer.new 2 1)).2.1.dirty_regions = [] ∧
     (c1Renderer.render_paged (StyledFrameBuffer.new 2 1)).2.1.dirty_regions = []) := by
  have h1 := (claim_c1_render_atomicity c1Renderer (StyledFrameBuffer.new 3 1)).1 (by decide)
  have h2 := (claim_c1_render_atomicity c1Renderer (StyledFrameBuffer.new 2 1)).2 ⟨rfl, rfl⟩
  exact ⟨⟨h1.1, h1.2.1, h1.2.2.1, h1.2.2.2.2.1⟩,
         ⟨h2.1, h2.2.1, h2.2.2.1, h2.2.2.2.2.2⟩⟩

/-- Characterization of the `draw_text` inner loop: on a well-formed grid,
with the budget `mc` fitting in the row, the loop writes the sanitized
characters at consecutive cells of row `y` starting at `x + cc` and touches
nothing else. -/
theorem StyledFrameBuffer.draw_text_loop_spec (x y mc : Nat) (fg bg : Option Color) :
    ∀ (text : List Char) (fb : StyledFrameBuffer) (cc : Nat),
      fb.data.length = fb.width * fb.height →
      y < fb.height → x + mc ≤ fb.width →
      ((∀ a b : Nat, ¬(b = y ∧ x + cc ≤ a ∧ a < x + min (cc + text.length) mc) →
        (fb.draw_text_loop x y mc fg bg text cc).get a b = fb.get a b) ∧
      (∀ i : Nat, cc + i < mc → i < text.length →
        (fb.draw_text_loop x y mc fg bg text cc).get (x + cc + i) y =
          ⟨drawTextSafeChar (text.getD i ' '), fg, bg⟩) ∧
      (fb.draw_text_loop x y mc fg bg text cc).width = fb.width ∧
      (fb.draw_text_loop x y mc fg bg text cc).height = fb.height ∧
      (fb.draw_text_loop x y mc fg bg text cc).data.length = fb.data.length) := by
  intro text
  induction text with
  | nil =>
    intro fb cc hlen hy hmc
    exact ⟨fun a b h => rfl, fun i hi hlen0 => absurd hlen0 (by simp), rfl, rfl, rfl⟩
  | cons ch rest ih =>
    intro fb cc hlen hy hmc
    by_cases hbreak : cc ≥ mc
    · have hloop : fb.draw_text_loop x y mc fg bg (ch :: rest) cc = fb := by
        simp only [StyledFrameBuffer.draw_text_loop]
        rw [if_pos hbreak]
      rw [hloop]
      exact ⟨fun a b h => rfl, fun i hi hlen' => absurd hi (by omega), rfl, rfl, rfl⟩
    · push_neg at hbreak
      have hposx : x + cc < fb.width := by omega
      have hloop : fb.draw_text_loop x y mc fg bg (ch :: rest) cc =
          (fb.set (x + cc) y ⟨drawTextSafeChar ch, fg, bg⟩).draw_text_loop
            x y mc fg bg rest (cc + 1) := by
        simp only [StyledFrameBuffer.draw_text_loop]
        rw [if_neg (by omega), if_neg (by omega)]
      rw [hloop]
      obtain ⟨hw', hh', hdl'⟩ :=
        fb.set_width (x + cc) y ⟨drawTextSafeChar ch, fg, bg⟩
      obtain ⟨ihU, ihW, ihw, ihh, ihl⟩ :=
        ih (fb.set (x + cc) y ⟨drawTextSafeChar ch, fg, bg⟩) (cc + 1)
          (by rw [hdl', hw', hh']; exact hlen) (by rw [hh']; exact hy)
          (by rw [hw']; exact hmc)
      refine ⟨?_, ?_, by rw [ihw, hw'], by rw [ihh, hh'], by rw [ihl, hdl']⟩
      · intro a b hout
        have hlist : (ch :: rest).length = rest.length + 1 := rfl
        rw [hlist] at hout
        rw [ihU a b (by rintro ⟨hb, hge, hlt⟩; exact hout ⟨hb, by omega, by omega⟩)]
        rw [fb.get_set_other _
          (by rintro ⟨ha, hb⟩; exact hout ⟨hb, by omega, by omega⟩)]
      · intro i hi hilen
        cases i with
        | zero =>
          rw [ihU (x + cc + 0) y (by rintro ⟨_, hge, _⟩; omega)]
          have hget := fb.get_set_self ⟨drawTextSafeChar ch, fg, bg⟩ hlen hposx hy
          simpa using hget
        | succ j =>
          have hw := ihW j (by omega) (by simpa using hilen)
          have harr : x + cc + (j + 1) = x + (cc + 1) + j := by omega
          rw [harr]
          simpa using hw

/-- Claim C10: `draw_text` is a no-op for an out-of-bounds start; otherwise
it writes at most `width − x` cells on row `y` only, starting at `(x, y)`
and never wrapping, stores `?` in place of every control character and
every codepoint above 127, and leaves every other cell unchanged. -/
theorem claim_c10_draw_text_bounds (fb : StyledFrameBuffer) (x y : Nat) (text : List Char)
    (fg bg : Option Color) (hlen : fb.data.length = fb.width * fb.height) :
    (¬(x < fb.width ∧ y < fb.height) → fb.draw_text x y text fg bg = fb) ∧
    (x < fb.width → y < fb.height →
      (∀ a b : Nat, ¬(b = y ∧ x ≤ a ∧ a < x + min text.length (fb.width - x)) →
        (fb.draw_text x y text fg bg).get a b = fb.get a b) ∧
      (∀ i : Nat, i < min text.length (fb.width - x) →
        (fb.draw_text x y text fg bg).get (x + i) y =
          ⟨if isControlChar (text.getD i ' ') || decide ((text.getD i ' ').toNat > 127)
            then '?' else text.getD i ' ', fg, bg⟩)) := by
  constructor
  · intro h
    rw [StyledFrameBuffer.draw_text, if_pos (by omega)]
  · intro hx hy
    have hmc : x + (fb.width - x) ≤ fb.width := by omega
    obtain ⟨hU, hW, _, _, _⟩ :=
      StyledFrameBuffer.draw_text_loop_spec x y (fb.width - x) fg bg text fb 0 hlen hy hmc
    have hcall : fb.draw_text x y text fg bg =
        fb.draw_text_loop x y (fb.width - x) fg bg text 0 := by
      rw [StyledFrameBuffer.draw_text, if_neg (by omega)]
    rw [hcall]
    constructor
    · intro a b hout
      exact hU a b (by rintro ⟨hb, hge, hlt⟩; exact hout ⟨hb, by omega, by omega⟩)
    · intro i hilt
      have := hW i (by omega) (by omega)
      simpa [drawTextSafeChar] using this

/-- Witness for C10 on a 3×2 grid: drawing the text `[A, \n, é]` at (1, 0)
stores `A` then `?` (for the control character), leaves row 1 untouched,
and drawing at the out-of-bounds start (3, 0) is a no-op. -/
theorem claim_c10_witness :
    ((StyledFrameBuffer.new 3 2).draw_text 1 0
      ['A', Char.ofNat 10, Char.ofNat 233] none none).get 1 0 = ⟨'A', none, none⟩ ∧
    ((StyledFrameBuffer.new 3 2).draw_text 1 0
      ['A', Char.ofNat 10, Char.ofNat 233] none none).get 2 0 = ⟨'?', none, none⟩ ∧
    ((StyledFrameBuffer.new 3 2).draw_text 1 0
      ['A', Char.ofNat 10, Char.ofNat 233] none none).get 1 1 =
      (StyledFrameBuffer.new 3 2).get 1 1 ∧
    (StyledFrameBuffer.new 3 2).draw_text 3 0 ['A'] none none =
      StyledFrameBuffer.new 3 2 := by
  have h := claim_c10_draw_text_bounds (StyledFrameBuffer.new 3 2) 1 0
    ['A', Char.ofNat 10, Char.ofNat 233] none none (by decide)
  have h2 := (h.2 (by decide) (by decide))
  have hA := h2.2 0 (by decide)
  have hQ := h2.2 1 (by decide)
  have hrow := h2.1 1 1 (by rintro ⟨hb, _, _⟩; omega)
  have hoob := (claim_c10_draw_text_bounds (StyledFrameBuffer.new 3 2) 3 0 ['A'] none none
    (by decide)).1 (by decide)
  refine ⟨?_, ?_, hrow, hoob⟩
  · rw [show (1 : Nat) + 0 = 1 from rfl] at hA
    rw [hA]
    decide
  · rw [show (1 : Nat) + 1 = 2 from rfl] at hQ
    rw [hQ]
    decide

/-- Escape counting distributes over token-stream concatenation. -/
theorem countFg_append (a b : List AnsiToken) :
    countFg (a ++ b) = countFg a + countFg b := List.countP_append _ a b

/-- Escape counting distributes over token-stream concatenation. -/
theorem countBg_append (a b : List AnsiToken) :
    countBg (a ++ b) = countBg a + countBg b := List.countP_append _ a b

/-- Serializing a cell whose colors match the running style emits just the
character. -/
theorem cellStep_keep (fb : StyledFrameBuffer) (y x : Nat) (cf cb : Color)
    (toks : List AnsiToken)
    (hfg : (fb.get x y).fg_color = some cf) (hbg : (fb.get x y).bg_color = some cb) :
    fb.cellStep y (toks, (some cf, some cb)) x =
      (toks ++ [AnsiToken.chr (fb.get x y).ch], (some cf, some cb)) := by
  simp [StyledFrameBuffer.cellStep, hfg, hbg]

/-- Serializing a colored cell from the clear style state emits one
foreground escape, one background escape and the character. -/
theorem cellStep_first (fb : StyledFrameBuffer) (y x : Nat) (cf cb : Color)
    (toks : List AnsiToken)
    (hfg : (fb.get x y).fg_color = some cf) (hbg : (fb.get x y).bg_color = some cb) :
    fb.cellStep y (toks, ((none : Option Color), (none : Option Color))) x =
      (toks ++ [AnsiToken.fgEsc cf, AnsiToken.bgEsc cb, AnsiToken.chr (fb.get x y).ch],
        (some cf, some cb)) := by
  simp [StyledFrameBuffer.cellStep, hfg, hbg]

/-- Walking further uniformly-colored cells with the style already open
emits only characters: no additional escapes. -/
theorem foldRow_keep (fb : StyledFrameBuffer) (y : Nat) (cf cb : Color) :
    ∀ (l : List Nat) (toks : List AnsiToken),
      (∀ x ∈ l, (fb.get x y).fg_color = some cf ∧ (fb.get x y).bg_color = some cb) →
      ∃ tail, l.foldl (fb.cellStep y) (toks, (some cf, some cb)) =
          (toks ++ tail, (some cf, some cb)) ∧
        countFg tail = 0 ∧ countBg tail = 0 := by
  intro l
  induction l with
  | nil =>
    intro toks h
    exact ⟨[], by simp, rfl, rfl⟩
  | cons a l ih =>
    intro toks h
    rw [List.foldl_cons,
      cellStep_keep fb y a cf cb toks (h a (by simp)).1 (h a (by simp)).2]
    obtain ⟨tail, heq, h1, h2⟩ := ih (toks ++ [AnsiToken.chr (fb.get a y).ch])
      (fun x hx => h x (List.mem_cons_of_mem a hx))
    refine ⟨[AnsiToken.chr (fb.get a y).ch] ++ tail, by rw [heq]; simp, ?_, ?_⟩
    · rw [countFg_append, h1]; rfl
    · rw [countBg_append, h2]; rfl

/-- A full row of uniformly-colored cells, entered with the style clear,
emits exactly one foreground and one background escape and leaves the style
open. -/
theorem rowFold_start (fb : StyledFrameBuffer) (y : Nat) (cf cb : Color)
    (hw : 1 ≤ fb.width)
    (hrow : ∀ x, x < fb.width →
      (fb.get x y).fg_color = some cf ∧ (fb.get x y).bg_color = some cb)
    (toks : List AnsiToken) :
    ∃ tail, (List.range fb.width).foldl (fb.cellStep y)
        (toks, ((none : Option Color), (none : Option Color))) =
        (toks ++ [AnsiToken.fgEsc cf, AnsiToken.bgEsc cb] ++ tail, (some cf, some cb)) ∧
      countFg tail = 0 ∧ countBg tail = 0 := by
  obtain ⟨ww, hww⟩ : ∃ ww, fb.width = ww + 1 := ⟨fb.width - 1, by omega⟩
  rw [hww, List.range_succ_eq_map, List.foldl_cons,
    cellStep_first fb y 0 cf cb toks (hrow 0 (by omega)).1 (hrow 0 (by omega)).2]
  obtain ⟨tail, heq, h1, h2⟩ := foldRow_keep fb y cf cb ((List.range ww).map Nat.succ)
    (toks ++ [AnsiToken.fgEsc cf, AnsiToken.bgEsc cb, AnsiToken.chr (fb.get 0 y).ch])
    (fun x hx => by
      obtain ⟨i, hi, rfl⟩ := List.mem_map.mp hx
      exact hrow (Nat.succ i) (by rw [hww]; exact Nat.succ_lt_succ (List.mem_range.mp hi)))
  refine ⟨[AnsiToken.chr (fb.get 0 y).ch] ++ tail, ?_, ?_, ?_⟩
  · rw [heq]; simp
  · rw [countFg_append, h1]; rfl
  · rw [countBg_append, h2]; rfl

/-- Processing the first `k` rows of a uniformly-colored grid emits exactly
one foreground and one background escape per row; the running style is
closed at every row boundary and left open only after the last row. -/
theorem rowsFold_uniform (fb : StyledFrameBuffer) (cf cb : Color) (hw : 1 ≤ fb.width)
    (huni : ∀ x y, x < fb.width → y < fb.height →
      (fb.get x y).fg_color = some cf ∧ (fb.get x y).bg_color = some cb) :
    ∀ k, k ≤ fb.height →
      ∃ toks, (List.range k).foldl fb.rowStep ([], (none, none)) =
          (toks, if k = 0 then ((none : Option Color), (none : Option Color))
                 else if k < fb.height then (none, none) else (some cf, some cb)) ∧
        countFg toks = k ∧ countBg toks = k := by
  intro k
  induction k with
  | zero =>
    intro hk
    exact ⟨[], by simp, rfl, rfl⟩
  | succ k ih =>
    intro hk
    obtain ⟨toks, heq, h1, h2⟩ := ih (by omega)
    have hst : (if k = 0 then ((none : Option Color), (none : Option Color))
                else if k < fb.height then (none, none) else (some cf, some cb)) =
        ((none : Option Color), (none : Option Color)) := by
      by_cases h0 : k = 0
      · rw [if_pos h0]
      · rw [if_neg h0, if_pos (by omega)]
    rw [hst] at heq
    rw [List.range_succ, List.foldl_append, heq, List.foldl_cons, List.foldl_nil]
    obtain ⟨tail, hrow, t1, t2⟩ := rowFold_start fb k cf cb hw
      (fun x hx => huni x k hx (by omega)) toks
    simp only [StyledFrameBuffer.rowStep]
    rw [hrow]
    by_cases hlast : k < fb.height - 1
    · rw [if_pos hlast]
      refine ⟨toks ++ [AnsiToken.fgEsc cf, AnsiToken.bgEsc cb] ++ tail ++
          [AnsiToken.reset, AnsiToken.newline], ?_, ?_, ?_⟩
      · have hstate : (if k + 1 = 0 then ((none : Option Color), (none : Option Color))
            else if k + 1 < fb.height then (none, none) else (some cf, some cb)) =
            ((none : Option Color), (none : Option Color)) := by
          rw [if_neg (Nat.succ_ne_zero k), if_pos (by omega)]
        rw [hstate]
        dsimp only
        simp [List.append_assoc]
      · rw [countFg_append, countFg_append, countFg_append, h1, t1]; rfl
      · rw [countBg_append, countBg_append, countBg_append, h2, t2]; rfl
    · rw [if_neg hlast]
      refine ⟨toks ++ [AnsiToken.fgEsc cf, AnsiToken.bgEsc cb] ++ tail, ?_, ?_, ?_⟩
      · have hstate : (if k + 1 = 0 then ((none : Option Color), (none : Option Color))
            else if k + 1 < fb.height then (none, none) else (some cf, some cb)) =
            (some cf, some cb) := by
          rw [if_neg (Nat.succ_ne_zero k), if_neg (by omega)]
        rw [hstate]
      · rw [countFg_append, countFg_append, h1, t1]; rfl
      · rw [countBg_append, countBg_append, h2, t2]; rfl

/-- Counterexample to claim C3 as stated: in a 1×2 grid whose two cells
share one foreground color (red) and one background color (blue), the full
serialization emits two foreground escapes — one per row, because the
serializer resets the open style at the row boundary — not exactly one. -/
theorem claim_c3_counterexample :
    StyledFrameBuffer.get ⟨1, 2, [⟨'a', some Color.red, some Color.blue⟩,
        ⟨'a', some Color.red, some Color.blue⟩], []⟩ 0 0 =
      ⟨'a', some Color.red, some Color.blue⟩ ∧
    StyledFrameBuffer.get ⟨1, 2, [⟨'a', some Color.red, some Color.blue⟩,
        ⟨'a', some Color.red, some Color.blue⟩], []⟩ 0 1 =
      ⟨'a', some Color.red, some Color.blue⟩ ∧
    countFg (StyledFrameBuffer.toTokens ⟨1, 2, [⟨'a', some Color.red, some Color.blue⟩,
        ⟨'a', some Color.red, some Color.blue⟩], []⟩) = 2 := by
  decide

/-- Claim C3 (amended): for every styled grid of width and height at least 1
in which every cell has the same concrete foreground color and the same
concrete background color, the full serialization contains exactly one
foreground and one background escape sequence per row — `height` of each in
total, with no per-cell repetition; "exactly one of each" holds precisely
for grids of height 1. -/
theorem claim_c3_uniform_color_escapes (fb : StyledFrameBuffer) (cf cb : Color)
    (hw : 1 ≤ fb.width) (hh : 1 ≤ fb.height)
    (huni : ∀ x y, x < fb.width → y < fb.height →
      (fb.get x y).fg_color = some cf ∧ (fb.get x y).bg_color = some cb) :
    countFg fb.toTokens = fb.height ∧ countBg fb.toTokens = fb.height := by
  obtain ⟨toks, heq, h1, h2⟩ :=
    rowsFold_uniform fb cf cb hw huni fb.height (Nat.le_refl _)
  rw [if_neg (by omega), if_neg (by omega)] at heq
  simp only [StyledFrameBuffer.toTokens]
  rw [heq]
  simp only [Option.isSome_some, Bool.true_or, if_true]
  exact ⟨by rw [countFg_append, h1]; rfl, by rw [countBg_append, h2]; rfl⟩

/-- Witness for amended C3: a 2×2 grid of red-on-blue cells serializes with
exactly two foreground and two background escapes — one per row. -/
theorem claim_c3_witness :
    countFg (StyledFrameBuffer.toTokens
      ⟨2, 2, List.replicate 4 ⟨'a', some Color.red, some Color.blue⟩, []⟩) = 2 ∧
    countBg (StyledFrameBuffer.toTokens
      ⟨2, 2, List.replicate 4 ⟨'a', some Color.red, some Color.blue⟩, []⟩) = 2 :=
  claim_c3_uniform_color_escapes
    ⟨2, 2, List.replicate 4 ⟨'a', some Color.red, some Color.blue⟩, []⟩
    Color.red Color.blue (by decide) (by decide)
    (by
      intro x y hx hy
      interval_cases x <;> interval_cases y <;> exact ⟨by decide, by decide⟩)

end STG
